import Mathlib

/-!
Verification development for the RepoScan repository's AJAX classification
engine.  The definitions below are shallow embeddings of the Python sources:

* `classifierRules`, `applyRules`, `classifyMatch` embed the ordered
  `if/elif` classification chain of
  `RepoScan-Analyser/src/ajax_detector.py` (`detect_ajax_patterns`,
  lines 168-351).
* `mkDetail`, `detectLoop`, `detect_ajax_patterns` embed the per-match detail
  emission, counting and snippet enrichment of the same function.
* The `Atom`-based matcher embeds Python `re` scanning (`finditer`) for the
  concrete alternation patterns used by the sources.
* `extract_endpoint_url` and the `URL_PATTERNS` searchers embed
  `ajax_detector.extract_endpoint_url`.
* `dedup` embeds the deduplication loop of `parser.py` (`Parser.parse`,
  lines 99-111).
* `normalize_snippet` / `correlate` embed `crawler/comparer.py`.
* `get_csp_domain` / `create_csp_allowlist` embed `crawler/tracker.py`.
-/

/-! ## Basic character and string utilities -/

/-- Python `\s` (ASCII whitespace as the sources use it). -/
def isSpaceChar (c : Char) : Bool :=
  c == ' ' || c == '\t' || c == '\n' || c == '\r' || c == '\x0b' || c == '\x0c'

/-- Python `\w`: alphanumeric or underscore (ASCII view). -/
def isWordChar (c : Char) : Bool :=
  c.isAlphanum || c == '_'

/-- `pat` is a leading segment of `l`. -/
def leadsList (pat l : List Char) : Bool :=
  match pat, l with
  | [], _ => true
  | _ :: _, [] => false
  | a :: as, b :: bs => a == b && leadsList as bs

/-- `pat` occurs somewhere in `l`. -/
def subOccurs (pat : List Char) : List Char → Bool
  | [] => pat.isEmpty
  | c :: rest => leadsList pat (c :: rest) || subOccurs pat rest

/-- `needle` occurs as a contiguous substring of `hay` (Python `in`). -/
def containsSub (needle hay : String) : Bool :=
  subOccurs needle.data hay.data

/-- Python `str.count(sub)`: non-overlapping occurrences of `pat`.  After
a hit the scan resumes past the matched characters; the fuel (the input's
length) only makes the recursion structural. -/
def countSubAux (pat : List Char) : Nat → List Char → Nat
  | 0, _ => 0
  | _, [] => 0
  | f + 1, c :: rest =>
      if leadsList pat (c :: rest) then
        1 + countSubAux pat f (rest.drop (pat.length - 1))
      else
        countSubAux pat f rest

def countSub (pat l : List Char) : Nat :=
  countSubAux pat l.length l

/-- Python `str.lower()` (ASCII case folding, which is all the sources need). -/
def lowerStr (s : String) : String :=
  String.mk (s.data.map Char.toLower)

/-! ## A small matcher for the concrete `re` patterns of the sources

The sources scan text with compiled regular expressions whose quantified
subexpressions are all single-character classes, plus optional groups and
alternations.  `Atom` captures exactly those constructs; `matchAtoms` is a
backtracking matcher with Python `re` semantics (greedy quantifiers,
alternation tried left to right), and `reFinditer` mirrors
`re.finditer`: leftmost, non-overlapping matches. -/

inductive Atom where
  | cls (p : Char → Bool)              -- one character of a class
  | star (p : Char → Bool)             -- greedy `X*` over a class
  | plus (p : Char → Bool)             -- greedy `X+` over a class
  | opt (g : List Atom)                -- `(?:...)?`
  | alts (gs : List (List Atom))       -- `(?:...|...)`
  | wb                                 -- `\b`

def isWordOpt : Option Char → Bool
  | none => false
  | some c => isWordChar c

/-- Backtracking match of an atom sequence against the front of `s`;
`prev` is the character just before `s` (for `\b`).  Returns the number of
characters consumed by the first (Python-priority) successful match.  `fuel`
only bounds recursion; callers pass enough for the inputs at hand. -/
def matchAtoms : Nat → List Atom → Option Char → List Char → Option Nat
  | 0, _, _, _ => none
  | _ + 1, [], _, _ => some 0
  | f + 1, Atom.cls p :: rest, _, s =>
      match s with
      | [] => none
      | c :: s' => if p c then (matchAtoms f rest (some c) s').map (· + 1) else none
  | f + 1, Atom.star p :: rest, prev, s =>
      -- greedy: first try to consume one more char of the class, then `rest`
      (match s with
       | [] => matchAtoms f rest prev []
       | c :: s' =>
          if p c then
            match (matchAtoms f (Atom.star p :: rest) (some c) s').map (· + 1) with
            | some n => some n
            | none => matchAtoms f rest prev s
          else matchAtoms f rest prev s)
  | f + 1, Atom.plus p :: rest, prev, s =>
      matchAtoms f (Atom.cls p :: Atom.star p :: rest) prev s
  | f + 1, Atom.opt g :: rest, prev, s =>
      (match matchAtoms f (g ++ rest) prev s with
       | some n => some n
       | none => matchAtoms f rest prev s)
  | f + 1, Atom.alts gs :: rest, prev, s =>
      gs.findSome? (fun g => matchAtoms f (g ++ rest) prev s)
  | f + 1, Atom.wb :: rest, prev, s =>
      if isWordOpt prev != isWordOpt s.head? then matchAtoms f rest prev s else none

/-- Fuel that is ample for the concrete scans performed in this file. -/
def matchFuel (s : List Char) : Nat :=
  1000 * (s.length + 1)

/-- One step of `re.finditer`: at each position try the alternation; on a
match emit it and continue right after it (Python advances one position on
a zero-width match). -/
def finditerAux (alternation : List (List Atom)) :
    Nat → Option Char → List Char → Nat → List (Nat × String)
  | 0, _, _, _ => []
  | f + 1, prev, s, pos =>
      match s with
      | [] => []
      | c :: rest =>
        match alternation.findSome? (fun g => matchAtoms (matchFuel s) g prev s) with
        | some n =>
          if n == 0 then finditerAux alternation f (some c) rest (pos + 1)
          else (pos, String.mk (s.take n)) ::
               finditerAux alternation f ((s.take n).getLast?) (s.drop n) (pos + n)
        | none => finditerAux alternation f (some c) rest (pos + 1)

/-- `re.finditer(pattern, s)` as (start offset, matched text) pairs. -/
def reFinditer (alternation : List (List Atom)) (s : String) : List (Nat × String) :=
  finditerAux alternation (s.length + 1) none s.data 0

/-- Case-insensitive literal (all source patterns use `re.IGNORECASE`). -/
def reLit (str : String) : List Atom :=
  str.data.map (fun c => Atom.cls (fun x => x.toLower == c.toLower))

/-- A single literal (symbol) character. -/
def reCh (c : Char) : Atom := Atom.cls (fun x => x == c)

/-- `["\']` -/
def reQuote : Atom := Atom.cls (fun c => c == '"' || c == '\'')

/-- `\s*` -/
def reWs0 : Atom := Atom.star isSpaceChar
/-- `\s+` -/
def reWs1 : Atom := Atom.plus isSpaceChar
/-- `\w+` -/
def reWd1 : Atom := Atom.plus isWordChar
/-- `.` (no DOTALL: anything but a newline) -/
def reAny : Atom := Atom.cls (fun c => !(c == '\n'))

/-- `AJAX_CALL_PATTERN` (`ajax_detector.py` lines 17-98): the alternation's
branches in source order, including the source's duplicated branches. -/
def ajaxCallAlternation : List (List Atom) := [
  -- \bfetch\s*\(
  [Atom.wb] ++ reLit "fetch" ++ [reWs0, reCh '('],
  -- new\s+XMLHttpRequest\s*\(
  reLit "new" ++ [reWs1] ++ reLit "XMLHttpRequest" ++ [reWs0, reCh '('],
  -- (?:\$|jQuery|axios|superagent|http)\s*\.\s*(?:ajax|get|post|getJSON|getScript|load|request|ajaxSetup|ajaxPrefilter|ajaxTransport|param|parseJSON)\s*\(
  [Atom.alts [reLit "$", reLit "jQuery", reLit "axios", reLit "superagent", reLit "http"],
   reWs0, reCh '.', reWs0,
   Atom.alts [reLit "ajax", reLit "get", reLit "post", reLit "getJSON", reLit "getScript",
              reLit "load", reLit "request", reLit "ajaxSetup", reLit "ajaxPrefilter",
              reLit "ajaxTransport", reLit "param", reLit "parseJSON"],
   reWs0, reCh '('],
  -- \.(?:load|ajaxStart|ajaxSend|ajaxSuccess|ajaxError|ajaxComplete|ajaxStop|serialize|serializeArray)\s*\(
  [reCh '.',
   Atom.alts [reLit "load", reLit "ajaxStart", reLit "ajaxSend", reLit "ajaxSuccess",
              reLit "ajaxError", reLit "ajaxComplete", reLit "ajaxStop",
              reLit "serialize", reLit "serializeArray"],
   reWs0, reCh '('],
  -- \.open\s*\(\s*["\'](?:GET|POST|PUT|DELETE|PATCH)["\']
  [reCh '.'] ++ reLit "open" ++ [reWs0, reCh '(', reWs0, reQuote,
   Atom.alts [reLit "GET", reLit "POST", reLit "PUT", reLit "DELETE", reLit "PATCH"],
   reQuote],
  -- \bonreadystatechange\s*=
  [Atom.wb] ++ reLit "onreadystatechange" ++ [reWs0, reCh '='],
  -- \.send\s*\(
  [reCh '.'] ++ reLit "send" ++ [reWs0, reCh '('],
  -- \baxios(?:\.\w+)?\s*\(
  [Atom.wb] ++ reLit "axios" ++ [Atom.opt [reCh '.', reWd1], reWs0, reCh '('],
  -- new\s+WebSocket\s*\(
  reLit "new" ++ [reWs1] ++ reLit "WebSocket" ++ [reWs0, reCh '('],
  -- new\s+EventSource\s*\(
  reLit "new" ++ [reWs1] ++ reLit "EventSource" ++ [reWs0, reCh '('],
  -- \bajax\s*:\s*function
  [Atom.wb] ++ reLit "ajax" ++ [reWs0, reCh ':', reWs0] ++ reLit "function",
  -- navigator\.sendBeacon\s*\(
  reLit "navigator" ++ [reCh '.'] ++ reLit "sendBeacon" ++ [reWs0, reCh '('],
  -- new\s+ActiveXObject\s*\(
  reLit "new" ++ [reWs1] ++ reLit "ActiveXObject" ++ [reWs0, reCh '('],
  -- \bio\s*\(
  [Atom.wb] ++ reLit "io" ++ [reWs0, reCh '('],
  -- HubConnectionBuilder
  reLit "HubConnectionBuilder",
  -- \bSys\.Net\.WebRequest\s*\(
  [Atom.wb] ++ reLit "Sys" ++ [reCh '.'] ++ reLit "Net" ++ [reCh '.'] ++
    reLit "WebRequest" ++ [reWs0, reCh '('],
  -- \bPageMethods\.\w+\s*\(
  [Atom.wb] ++ reLit "PageMethods" ++ [reCh '.', reWd1, reWs0, reCh '('],
  -- \b__doPostBack\s*\(
  [Atom.wb] ++ reLit "__doPostBack" ++ [reWs0, reCh '('],
  -- \bSys\.WebForms\.PageRequestManager
  [Atom.wb] ++ reLit "Sys" ++ [reCh '.'] ++ reLit "WebForms" ++ [reCh '.'] ++
    reLit "PageRequestManager",
  -- \bdata-ajax(?:-\w+)?\s*=
  [Atom.wb] ++ reLit "data-ajax" ++ [Atom.opt [reCh '-', reWd1], reWs0, reCh '='],
  -- \.setRequestHeader\s*\(
  [reCh '.'] ++ reLit "setRequestHeader" ++ [reWs0, reCh '('],
  -- \.abort\s*\(
  [reCh '.'] ++ reLit "abort" ++ [reWs0, reCh '('],
  -- \.getResponseHeader\s*\(
  [reCh '.'] ++ reLit "getResponseHeader" ++ [reWs0, reCh '('],
  -- \.getAllResponseHeaders\s*\(
  [reCh '.'] ++ reLit "getAllResponseHeaders" ++ [reWs0, reCh '('],
  -- new\s+Headers\s*\(
  reLit "new" ++ [reWs1] ++ reLit "Headers" ++ [reWs0, reCh '('],
  -- new\s+Request\s*\(
  reLit "new" ++ [reWs1] ++ reLit "Request" ++ [reWs0, reCh '('],
  -- \bJSON\.parse\s*\(
  [Atom.wb] ++ reLit "JSON" ++ [reCh '.'] ++ reLit "parse" ++ [reWs0, reCh '('],
  -- \bJSON\.stringify\s*\(
  [Atom.wb] ++ reLit "JSON" ++ [reCh '.'] ++ reLit "stringify" ++ [reWs0, reCh '('],
  -- <\w+:UpdatePanel
  [reCh '<', reWd1, reCh ':'] ++ reLit "UpdatePanel",
  -- <\w+:ScriptManager
  [reCh '<', reWd1, reCh ':'] ++ reLit "ScriptManager",
  -- \bScriptManager\.RegisterStartupScript\s*\(
  [Atom.wb] ++ reLit "ScriptManager" ++ [reCh '.'] ++ reLit "RegisterStartupScript" ++
    [reWs0, reCh '('],
  -- \bScriptManager\.RegisterClientScriptBlock\s*\(
  [Atom.wb] ++ reLit "ScriptManager" ++ [reCh '.'] ++ reLit "RegisterClientScriptBlock" ++
    [reWs0, reCh '('],
  -- \bClientScript\.RegisterStartupScript\s*\(
  [Atom.wb] ++ reLit "ClientScript" ++ [reCh '.'] ++ reLit "RegisterStartupScript" ++
    [reWs0, reCh '('],
  -- \bClientScript\.RegisterClientScriptBlock\s*\(
  [Atom.wb] ++ reLit "ClientScript" ++ [reCh '.'] ++ reLit "RegisterClientScriptBlock" ++
    [reWs0, reCh '('],
  -- \bPage\.ClientScript\s*\.
  [Atom.wb] ++ reLit "Page" ++ [reCh '.'] ++ reLit "ClientScript" ++ [reWs0, reCh '.'],
  -- \[WebMethod\]
  [reCh '['] ++ reLit "WebMethod" ++ [reCh ']'],
  -- \[ScriptMethod\]
  [reCh '['] ++ reLit "ScriptMethod" ++ [reCh ']'],
  -- \[WebService\]
  [reCh '['] ++ reLit "WebService" ++ [reCh ']'],
  -- \[OperationContract\]
  [reCh '['] ++ reLit "OperationContract" ++ [reCh ']'],
  -- \[ApiController\]
  [reCh '['] ++ reLit "ApiController" ++ [reCh ']'],
  -- \[Route\(\s*["\']api/
  [reCh '['] ++ reLit "Route" ++ [reCh '(', reWs0, reQuote] ++ reLit "api" ++ [reCh '/'],
  -- \[HubName\]
  [reCh '['] ++ reLit "HubName" ++ [reCh ']'],
  -- \bhubConnection\.start\s*\(
  [Atom.wb] ++ reLit "hubConnection" ++ [reCh '.'] ++ reLit "start" ++ [reWs0, reCh '('],
  -- \bClients\.All
  [Atom.wb] ++ reLit "Clients" ++ [reCh '.'] ++ reLit "All",
  -- \bClients\.Caller
  [Atom.wb] ++ reLit "Clients" ++ [reCh '.'] ++ reLit "Caller",
  -- @Ajax\.ActionLink
  [reCh '@'] ++ reLit "Ajax" ++ [reCh '.'] ++ reLit "ActionLink",
  -- @Ajax\.BeginForm
  [reCh '@'] ++ reLit "Ajax" ++ [reCh '.'] ++ reLit "BeginForm",
  -- @Url\.Action\s*\(
  [reCh '@'] ++ reLit "Url" ++ [reCh '.'] ++ reLit "Action" ++ [reWs0, reCh '('],
  -- @Url\.Content\s*\(
  [reCh '@'] ++ reLit "Url" ++ [reCh '.'] ++ reLit "Content" ++ [reWs0, reCh '('],
  -- <system\.web\.extensions>
  [reCh '<'] ++ reLit "system" ++ [reCh '.'] ++ reLit "web" ++ [reCh '.'] ++
    reLit "extensions" ++ [reCh '>'],
  -- <scriptResourceHandler>
  [reCh '<'] ++ reLit "scriptResourceHandler" ++ [reCh '>'],
  -- <telerik:RadAjaxManager
  [reCh '<'] ++ reLit "telerik" ++ [reCh ':'] ++ reLit "RadAjaxManager",
  -- <telerik:RadAjaxPanel
  [reCh '<'] ++ reLit "telerik" ++ [reCh ':'] ++ reLit "RadAjaxPanel",
  -- \bRadAjaxManager\b
  [Atom.wb] ++ reLit "RadAjaxManager" ++ [Atom.wb],
  -- \bASPxCallback
  [Atom.wb] ++ reLit "ASPxCallback",
  -- \bASPxCallbackPanel
  [Atom.wb] ++ reLit "ASPxCallbackPanel",
  -- \$http\b
  [reCh '$'] ++ reLit "http" ++ [Atom.wb],
  -- \bthis\.http\.get\s*\(
  [Atom.wb] ++ reLit "this" ++ [reCh '.'] ++ reLit "http" ++ [reCh '.'] ++
    reLit "get" ++ [reWs0, reCh '('],
  -- \bthis\.http\.post\s*\(
  [Atom.wb] ++ reLit "this" ++ [reCh '.'] ++ reLit "http" ++ [reCh '.'] ++
    reLit "post" ++ [reWs0, reCh '('],
  -- \buseQuery\s*\(
  [Atom.wb] ++ reLit "useQuery" ++ [reWs0, reCh '('],
  -- \buseMutation\s*\(
  [Atom.wb] ++ reLit "useMutation" ++ [reWs0, reCh '('],
  -- \bnew\s+Ajax\.Request\s*\(
  [Atom.wb] ++ reLit "new" ++ [reWs1] ++ reLit "Ajax" ++ [reCh '.'] ++
    reLit "Request" ++ [reWs0, reCh '('],
  -- \bnew\s+Request(?:.JSON)?\s*\(
  [Atom.wb] ++ reLit "new" ++ [reWs1] ++ reLit "Request" ++
    [Atom.opt ([reAny] ++ reLit "JSON"), reWs0, reCh '('],
  -- \bdataType\s*:\s*["\']jsonp["\']
  [Atom.wb] ++ reLit "dataType" ++ [reWs0, reCh ':', reWs0, reQuote] ++
    reLit "jsonp" ++ [reQuote],
  -- \bResponse\.Write\s*\(\s*["\']<script
  [Atom.wb] ++ reLit "Response" ++ [reCh '.'] ++ reLit "Write" ++
    [reWs0, reCh '(', reWs0, reQuote, reCh '<'] ++ reLit "script",
  -- \bChannelFactory<
  [Atom.wb] ++ reLit "ChannelFactory" ++ [reCh '<'],
  -- \bHttpClient\s+
  [Atom.wb] ++ reLit "HttpClient" ++ [reWs1],
  -- \bIJSRuntime\b
  [Atom.wb] ++ reLit "IJSRuntime" ++ [Atom.wb],
  -- \[Http(?:Get|Post|Put|Delete|Patch|Options)\]
  [reCh '['] ++ reLit "Http" ++
    [Atom.alts [reLit "Get", reLit "Post", reLit "Put", reLit "Delete",
                reLit "Patch", reLit "Options"], reCh ']'],
  -- \bbackgroundFetch\b
  [Atom.wb] ++ reLit "backgroundFetch" ++ [Atom.wb],
  -- \bIJSRuntime\b  (duplicated in source)
  [Atom.wb] ++ reLit "IJSRuntime" ++ [Atom.wb],
  -- \[Http(?:Get|Post|Put|Delete|Patch|Options)\]  (duplicated in source)
  [reCh '['] ++ reLit "Http" ++
    [Atom.alts [reLit "Get", reLit "Post", reLit "Put", reLit "Delete",
                reLit "Patch", reLit "Options"], reCh ']'],
  -- \bbackgroundFetch\b  (duplicated in source)
  [Atom.wb] ++ reLit "backgroundFetch" ++ [Atom.wb],
  -- target=["\']_?iframe["\']
  reLit "target" ++ [reCh '=', reQuote, Atom.opt [reCh '_']] ++ reLit "iframe" ++ [reQuote],
  -- <iframe\b[^>]*style=["\'].*display:\s*none
  [reCh '<'] ++ reLit "iframe" ++ [Atom.wb, Atom.star (fun c => !(c == '>'))] ++
    reLit "style" ++ [reCh '=', reQuote, Atom.star (fun c => !(c == '\n'))] ++
    reLit "display" ++ [reCh ':', reWs0] ++ reLit "none",
  -- <iframe\b[^>]*style=["\'].*display:\s*none  (duplicated in source)
  [reCh '<'] ++ reLit "iframe" ++ [Atom.wb, Atom.star (fun c => !(c == '>'))] ++
    reLit "style" ++ [reCh '=', reQuote, Atom.star (fun c => !(c == '\n'))] ++
    reLit "display" ++ [reCh ':', reWs0] ++ reLit "none",
  -- \bnew\s+FormData\b
  [Atom.wb] ++ reLit "new" ++ [reWs1] ++ reLit "FormData" ++ [Atom.wb],
  -- \bnew\s+Image\s*\(
  [Atom.wb] ++ reLit "new" ++ [reWs1] ++ reLit "Image" ++ [reWs0, reCh '('],
  -- \.src\s*=\s*["\']http
  [reCh '.'] ++ reLit "src" ++ [reWs0, reCh '=', reWs0, reQuote] ++ reLit "http"]

/-- Matches of the main AJAX pattern over a text, as `detect_ajax_patterns`
computes them (`AJAX_CALL_PATTERN.finditer(code)`). -/
def ajaxCallMatches (code : String) : List (Nat × String) :=
  reFinditer ajaxCallAlternation code

/-- The reduced `ajax_call` alternation of
`App_Delivery_Package/repo_depth_analyser/src/scanner.py` (lines 43-54). -/
def appAjaxCallAlternation : List (List Atom) := [
  [Atom.wb] ++ reLit "fetch" ++ [reWs0, reCh '('],
  reLit "new" ++ [reWs1] ++ reLit "XMLHttpRequest" ++ [reWs0, reCh '('],
  [Atom.alts [reLit "$", reLit "jQuery", reLit "axios", reLit "superagent", reLit "http"],
   reWs0, reCh '.', reWs0,
   Atom.alts [reLit "ajax", reLit "get", reLit "post", reLit "getJSON", reLit "getScript",
              reLit "load", reLit "request"],
   reWs0, reCh '('],
  [reCh '.'] ++ reLit "open" ++ [reWs0, reCh '(', reWs0, reQuote,
   Atom.alts [reLit "GET", reLit "POST", reLit "PUT", reLit "DELETE", reLit "PATCH"],
   reQuote],
  [Atom.wb] ++ reLit "onreadystatechange" ++ [reWs0, reCh '='],
  [reCh '.'] ++ reLit "send" ++ [reWs0, reCh '('],
  [Atom.wb] ++ reLit "axios" ++ [Atom.opt [reCh '.', reWd1], reWs0, reCh '('],
  reLit "new" ++ [reWs1] ++ reLit "WebSocket" ++ [reWs0, reCh '('],
  reLit "new" ++ [reWs1] ++ reLit "EventSource" ++ [reWs0, reCh '(']]

/-- `len(self.patterns['ajax_call'].findall(content))`: the
App_Delivery_Package scanner's per-file AJAX-calls count (its line 121). -/
def appAjaxCallsCount (content : String) : Nat :=
  (reFinditer appAjaxCallAlternation content).length

/-! ## Classifier rule catalogue

`ajax_detector.detect_ajax_patterns` classifies each matched text by an
ordered `if/elif` chain of substring tests on the lower-cased match,
producing `(category, capability, difficulty, is_logical_request)`.
The chain's defaults are `("Request", "Data Exchange", "Easy", True)` and
only the first satisfied branch overrides them; branches containing inner
conditionals are split into consecutive rules with refined predicates,
preserving the chain's first-match semantics exactly. -/

structure RuleOutcome where
  category : String
  capability : String
  difficulty : String
  countsAsRequest : Bool
deriving DecidableEq, Repr

/-- Default outcome when no rule in the chain fires. -/
def defaultOutcome : RuleOutcome :=
  ⟨"Request", "Data Exchange", "Easy", true⟩

structure ClassRule where
  pred : String → Bool
  outcome : RuleOutcome

/-- The ordered rule catalogue of `detect_ajax_patterns` (lines 178-351).
Each entry is one `elif` branch, in source order; predicates are over the
lower-cased matched text. -/
def classifierRules : List ClassRule := [
  ⟨fun lm => containsSub "sendbeacon" lm,
    ⟨"Request", "Telemetry", "Easy", true⟩⟩,
  ⟨fun lm => containsSub "getscript" lm || containsSub ".js" lm,
    ⟨"Request", "Script Loading (Dynamic)", "Hard", true⟩⟩,
  ⟨fun lm => containsSub ".css" lm,
    ⟨"Request", "CSS Loading", "Medium", true⟩⟩,
  ⟨fun lm => containsSub ".html" lm,
    ⟨"Request", "UI Injection", "Medium", true⟩⟩,
  ⟨fun lm => containsSub "load" lm && !containsSub "payload" lm,
    ⟨"Request", "UI Injection (Likely)", "Medium", true⟩⟩,
  ⟨fun lm => containsSub "ajaxsetup" lm || containsSub "ajaxprefilter" lm ||
             containsSub "ajaxtransport" lm,
    ⟨"Config", "AJAX Configuration", "Easy", false⟩⟩,
  ⟨fun lm => containsSub "ajaxstart" lm || containsSub "ajaxsend" lm ||
             containsSub "ajaxsuccess" lm || containsSub "ajaxerror" lm ||
             containsSub "ajaxcomplete" lm || containsSub "ajaxstop" lm ||
             containsSub "onreadystatechange" lm,
    ⟨"Event", "Global Event Handler", "Hard (Refactoring Risk)", false⟩⟩,
  ⟨fun lm => containsSub "serialize" lm || containsSub "param" lm ||
             containsSub "parsejson" lm,
    ⟨"Utility", "Form/Data Utility", "Easy", false⟩⟩,
  ⟨fun lm => containsSub "sys.net.webrequest" lm,
    ⟨"Request", "Data Exchange (Legacy)", "Hard", true⟩⟩,
  ⟨fun lm => containsSub "pagemethods" lm,
    ⟨"Request", "RPC (Code-Behind)", "Hard", true⟩⟩,
  ⟨fun lm => containsSub "__dopostback" lm,
    ⟨"Request", "Partial Postback", "Medium", true⟩⟩,
  ⟨fun lm => containsSub "data-ajax" lm,
    ⟨"Request", "Declarative AJAX", "Easy", true⟩⟩,
  ⟨fun lm => containsSub "sys.webforms" lm,
    ⟨"Config", "UpdatePanel Config", "Hard", false⟩⟩,
  ⟨fun lm => containsSub "setrequestheader" lm || containsSub "getresponseheader" lm ||
             containsSub "getallresponseheaders" lm,
    ⟨"Config", "Request Header Manipulation", "Medium", false⟩⟩,
  ⟨fun lm => containsSub "abort" lm,
    ⟨"Utility", "Request Control", "Easy", false⟩⟩,
  ⟨fun lm => containsSub "json.parse" lm || containsSub "json.stringify" lm,
    ⟨"Utility", "JSON Utility", "Easy", false⟩⟩,
  ⟨fun lm => containsSub "new headers" lm || containsSub "new request" lm,
    ⟨"Construct", "Fetch API Construct", "Easy", false⟩⟩,
  ⟨fun lm => containsSub "updatepanel" lm,
    ⟨"Request", "Partial Rendering (UpdatePanel)", "Hard", true⟩⟩,
  ⟨fun lm => containsSub "scriptmanager" lm || containsSub "clientscript" lm,
    ⟨"Server", "Server-Side Script Injection", "Hard", false⟩⟩,
  ⟨fun lm => containsSub "webmethod" lm || containsSub "scriptmethod" lm ||
             containsSub "webservice" lm,
    ⟨"Server", "AJAX Endpoint (Server)", "Medium", false⟩⟩,
  ⟨fun lm => containsSub "apicontroller" lm || containsSub "[route" lm,
    ⟨"Server", "API Endpoint (Server)", "Medium", false⟩⟩,
  ⟨fun lm => containsSub "operationcontract" lm,
    ⟨"Server", "WCF Endpoint (Server)", "Hard", false⟩⟩,
  ⟨fun lm => containsSub "hubname" lm || containsSub "clients.all" lm ||
             containsSub "clients.caller" lm,
    ⟨"Server", "SignalR Hub (Server)", "Hard", false⟩⟩,
  ⟨fun lm => containsSub "hubconnection" lm,
    ⟨"Real-time", "SignalR Client", "Easy", true⟩⟩,
  ⟨fun lm => containsSub "@ajax" lm,
    ⟨"Request", "Razor AJAX Helper", "Easy", true⟩⟩,
  ⟨fun lm => containsSub "@url" lm,
    ⟨"Construct", "Dynamic URL Generation", "Easy", false⟩⟩,
  ⟨fun lm => containsSub "<system.web.extensions>" lm ||
             containsSub "scriptresourcehandler" lm,
    ⟨"Config", "AJAX Configuration", "Medium", false⟩⟩,
  ⟨fun lm => containsSub "radajax" lm || containsSub "telerik" lm,
    ⟨"Third-Party", "Telerik AJAX Control", "Hard (Vendor Lock-in)", true⟩⟩,
  ⟨fun lm => containsSub "aspxcallback" lm,
    ⟨"Third-Party", "DevExpress AJAX Control", "Hard (Vendor Lock-in)", true⟩⟩,
  ⟨fun lm => containsSub "response.write" lm,
    ⟨"Server", "Direct Script Injection", "High (Security Risk)", false⟩⟩,
  ⟨fun lm => containsSub "channelfactory" lm,
    ⟨"Server", "WCF Client Proxy", "Hard", true⟩⟩,
  ⟨fun lm => containsSub "httpclient" lm,
    ⟨"Server/Blazor", ".NET HttpClient", "Easy", true⟩⟩,
  ⟨fun lm => containsSub "ijsruntime" lm,
    ⟨"Blazor", "Blazor JS Interop", "Medium", false⟩⟩,
  ⟨fun lm => containsSub "[http" lm,
    ⟨"Server", "API Endpoint Verb", "Easy", false⟩⟩,
  ⟨fun lm => containsSub "backgroundfetch" lm,
    ⟨"Service Worker", "Background Sync/Fetch", "Medium", true⟩⟩,
  ⟨fun lm => containsSub "iframe" lm,
    ⟨"Legacy Pattern", "Hidden Iframe (Pseudo-AJAX)", "Hard", true⟩⟩,
  ⟨fun lm => containsSub "formdata" lm,
    ⟨"Construct", "Form Data Construction", "Easy", false⟩⟩,
  ⟨fun lm => containsSub "new image" lm || containsSub ".src" lm,
    ⟨"Request", "Pixel Tracking (Image)", "Easy", true⟩⟩,
  ⟨fun lm => containsSub "usequery" lm || containsSub "usemutation" lm,
    ⟨"Modern Framework", "Modern Data Fetching (React Query)", "Easy", true⟩⟩,
  ⟨fun lm => containsSub "this.http" lm,
    ⟨"Modern Framework", "Angular HttpClient", "Easy", true⟩⟩,
  -- `elif 'ajax.request' in lm or 'new request' in lm:` with inner
  -- conditionals, split into three consecutive rules:
  ⟨fun lm => containsSub "ajax.request" lm,
    ⟨"Legacy Lib", "Prototype.js AJAX", "Hard", true⟩⟩,
  ⟨fun lm => containsSub "new request" lm && containsSub "mootools" lm,
    ⟨"Legacy Lib", "MooTools/Fetch Request", "Hard", true⟩⟩,
  ⟨fun lm => containsSub "new request" lm,
    ⟨"Construct", "MooTools/Fetch Request", "Hard", true⟩⟩,
  ⟨fun lm => containsSub "jsonp" lm,
    ⟨"Legacy Pattern", "JSONP (Legacy Cross-Domain)", "Hard (Security Risk)", true⟩⟩,
  -- `elif 'new xmlhttprequest' in lm or '.open' in lm:` with the inner
  -- `if 'xmlhttprequest' in lm` reassignment, split into two rules:
  ⟨fun lm => (containsSub "new xmlhttprequest" lm || containsSub ".open" lm) &&
             containsSub "xmlhttprequest" lm,
    ⟨"Construct", "XHR Construct", "Easy", false⟩⟩,
  ⟨fun lm => containsSub "new xmlhttprequest" lm || containsSub ".open" lm,
    ⟨"Construct", "XHR Construct", "Easy", true⟩⟩]

/-- First-match evaluation of an ordered rule list (the `if/elif` chain). -/
def applyRules : List ClassRule → String → RuleOutcome
  | [], _ => defaultOutcome
  | r :: rs, lm => if r.pred lm then r.outcome else applyRules rs lm

/-- The classification `detect_ajax_patterns` assigns to one lower-cased
matched text. -/
def classifyMatch (lm : String) : RuleOutcome :=
  applyRules classifierRules lm

/-! ## Endpoint extraction (`ajax_detector.extract_endpoint_url`)

The `URL_PATTERNS` searches are embedded as deterministic scanners.  All
their quantified subpatterns are maximal runs over character classes whose
following context is outside the class, so Python's greedy backtracking
semantics coincide with the `takeWhile`-style scans below.  `searchAt`
mirrors `re.search`: first position (leftmost) where the pattern matches. -/

/-- A maximal nonempty run of characters satisfying `p` (`[...]+`).
Returns the run and the remaining input. -/
def takeRun1 (p : Char → Bool) : List Char → Option (List Char × List Char)
  | [] => none
  | c :: rest =>
      if p c then some (c :: rest.takeWhile p, rest.dropWhile p) else none

/-- Case-insensitive literal at the front; returns the rest. -/
def ciLead : List Char → List Char → Option (List Char)
  | [], l => some l
  | _ :: _, [] => none
  | p :: ps, c :: cs => if c.toLower == p.toLower then ciLead ps cs else none

/-- An exact character at the front. -/
def chLead (ch : Char) : List Char → Option (List Char)
  | [] => none
  | c :: cs => if c == ch then some cs else none

/-- A quote character (`['"]`) at the front. -/
def quoteLead : List Char → Option (List Char)
  | [] => none
  | c :: cs => if c == '"' || c == '\'' then some cs else none

/-- `\s*` at the front (greedy, deterministic here). -/
def skipWs (l : List Char) : List Char := l.dropWhile isSpaceChar

def notQuote (c : Char) : Bool := !(c == '"' || c == '\'')

def notBacktick (c : Char) : Bool := !(c == '\x60')

def identHeadChar (c : Char) : Bool := c.isAlpha || c == '_' || c == '$'

def identTailChar (c : Char) : Bool := c.isAlphanum || c == '_' || c == '$'

/-- `[a-zA-Z_$][a-zA-Z0-9_$]*` at the front. -/
def identLead (l : List Char) : Option (List Char × List Char) :=
  match l with
  | [] => none
  | c :: rest =>
      if identHeadChar c then some (c :: rest.takeWhile identTailChar, rest.dropWhile identTailChar)
      else none

/-- `re.search`: try the position matcher at every suffix, leftmost first. -/
def searchAt (f : List Char → Option String) : List Char → Option String
  | [] => none
  | c :: rest =>
      match f (c :: rest) with
      | some r => some r
      | none => searchAt f rest

/-- `url\s*:\s*['"]([^'"]+)['"]` at a position (group 1). -/
def urlPropertyAt (l : List Char) : Option String := do
  let l ← ciLead "url".data l
  let l ← chLead ':' (skipWs l)
  let l ← quoteLead (skipWs l)
  let (cap, l) ← takeRun1 notQuote l
  let _ ← quoteLead l
  some (String.mk cap)

/-- `url\s*:\s*([a-zA-Z_$][a-zA-Z0-9_$]*\s*\+\s*['"][^'"]+['"])` at a
position (group 1 spans from the identifier through the closing quote). -/
def urlConcatAt (l : List Char) : Option String := do
  let l ← ciLead "url".data l
  let l ← chLead ':' (skipWs l)
  let l := skipWs l
  let (id0, l) ← identLead l
  let ws1 := l.takeWhile isSpaceChar
  let l ← chLead '+' (l.dropWhile isSpaceChar)
  let ws2 := l.takeWhile isSpaceChar
  let l := l.dropWhile isSpaceChar
  let q1 := l.head?
  let l ← quoteLead l
  let (cap, l) ← takeRun1 notQuote l
  let q2 := l.head?
  let _ ← quoteLead l
  match q1, q2 with
  | some c1, some c2 =>
      some (String.mk (id0 ++ ws1 ++ ['+'] ++ ws2 ++ [c1] ++ cap ++ [c2]))
  | _, _ => none

/-- ``url\s*:\s*`([^`]+)` `` at a position (group 1). -/
def urlTemplateAt (l : List Char) : Option String := do
  let l ← ciLead "url".data l
  let l ← chLead ':' (skipWs l)
  let l ← chLead '\x60' (skipWs l)
  let (cap, l) ← takeRun1 notBacktick l
  let _ ← chLead '\x60' l
  some (String.mk cap)

/-- `url\s*:\s*([a-zA-Z_$][a-zA-Z0-9_$]*)(?:\s|,|\))` at a position. -/
def urlVariableAt (l : List Char) : Option String := do
  let l ← ciLead "url".data l
  let l ← chLead ':' (skipWs l)
  let l := skipWs l
  let (id0, l) ← identLead l
  match l with
  | c :: _ =>
      if isSpaceChar c || c == ',' || c == ')' then some (String.mk id0) else none
  | [] => none

/-- `fetch\s*\(\s*['"]([^'"]+)['"]` at a position (group 1). -/
def fetchLiteralAt (l : List Char) : Option String := do
  let l ← ciLead "fetch".data l
  let l ← chLead '(' (skipWs l)
  let l ← quoteLead (skipWs l)
  let (cap, l) ← takeRun1 notQuote l
  let _ ← quoteLead l
  some (String.mk cap)

/-- ``fetch\s*\(\s*`([^`]+)` `` at a position (group 1). -/
def fetchTemplateAt (l : List Char) : Option String := do
  let l ← ciLead "fetch".data l
  let l ← chLead '(' (skipWs l)
  let l ← chLead '\x60' (skipWs l)
  let (cap, l) ← takeRun1 notBacktick l
  let _ ← chLead '\x60' l
  some (String.mk cap)

/-- `\$\.(get|post|getJSON|load)\s*\(\s*['"]([^'"]+)['"]` at a position
(group 2); the method alternation backtracks in source order. -/
def jqueryLiteralAt (l : List Char) : Option String := do
  let l ← chLead '$' l
  let l ← chLead '.' l
  let afterMethod := fun (l2 : List Char) => do
    let l2 ← chLead '(' (skipWs l2)
    let l2 ← quoteLead (skipWs l2)
    let (cap, l2) ← takeRun1 notQuote l2
    let _ ← quoteLead l2
    some (String.mk cap)
  (["get", "post", "getJSON", "load"].findSome? fun m => do
    let l2 ← ciLead m.data l
    afterMethod l2)

/-- `axios\.(get|post|put|delete|patch)\s*\(\s*['"]([^'"]+)['"]` at a
position (group 2). -/
def axiosLiteralAt (l : List Char) : Option String := do
  let l ← ciLead "axios".data l
  let l ← chLead '.' l
  let afterMethod := fun (l2 : List Char) => do
    let l2 ← chLead '(' (skipWs l2)
    let l2 ← quoteLead (skipWs l2)
    let (cap, l2) ← takeRun1 notQuote l2
    let _ ← quoteLead l2
    some (String.mk cap)
  (["get", "post", "put", "delete", "patch"].findSome? fun m => do
    let l2 ← ciLead m.data l
    afterMethod l2)

/-- The "Generic Fallbacks" section of `extract_endpoint_url` (lines
424-440): `url_template`, `url_property` (with the Server-Generated
check), `url_concat`, `url_variable`, then the final sentinel. -/
def extract_endpoint_fallbacks (searchCode : List Char) : String :=
  match searchAt urlTemplateAt searchCode with
  | some r => r
  | none =>
    match searchAt urlPropertyAt searchCode with
    | some url =>
        if containsSub "@" url || containsSub "<%" url then "Server-Generated" else url
    | none =>
      match searchAt urlConcatAt searchCode with
      | some r => r
      | none =>
        match searchAt urlVariableAt searchCode with
        | some _ => "Dynamic/Variable"
        | none => "Unknown/Dynamic"

/-- `ajax_detector.extract_endpoint_url` (lines 399-440): pattern-keyed
extraction over the first 1000 characters, then the generic fallbacks. -/
def extract_endpoint_url (code : String) (patternMatch : String) : String :=
  let searchCode := code.data.take 1000
  let branch : Option String :=
    if containsSub "fetch" patternMatch then
      match searchAt fetchTemplateAt searchCode with
      | some r => some r
      | none => searchAt fetchLiteralAt searchCode
    else if containsSub "jquery" patternMatch || containsSub "$" patternMatch then
      searchAt jqueryLiteralAt searchCode
    else if containsSub "axios" patternMatch then
      searchAt axiosLiteralAt searchCode
    else none
  match branch with
  | some r => r
  | none => extract_endpoint_fallbacks searchCode

/-! ## Server-dependency patterns (`SERVER_PATTERNS`, lines 101-113) -/

def lbrace : Char := Char.ofNat 123
def rbrace : Char := Char.ofNat 125

/-- Occurrence of a case-insensitive literal anywhere (for the literal
`SERVER_PATTERNS` entries). -/
def ciOccurs (tok : String) (code : String) : Bool :=
  containsSub tok (lowerStr code)

/-- `<%\s`: literal `<%` followed by a whitespace character. -/
def aspOpenWsOccurs : List Char → Bool
  | [] => false
  | c :: rest =>
      (c == '<' && (match rest with
                    | p :: q :: _ => p == '%' && isSpaceChar q
                    | _ => false)) || aspOpenWsOccurs rest

/-- After a `\x7b\x7b`, a `\x7d\x7d` reachable without crossing a newline
(`.` does not match newlines without DOTALL). -/
def closeBracesFrom : List Char → Bool
  | [] => false
  | c :: rest =>
      leadsList [rbrace, rbrace] (c :: rest) || (!(c == '\n') && closeBracesFrom rest)

/-- `\{\{.*?\}\}` occurs somewhere. -/
def templateBracesOccurs : List Char → Bool
  | [] => false
  | c :: rest =>
      (leadsList [lbrace, lbrace] (c :: rest) && closeBracesFrom (rest.drop 1)) ||
      templateBracesOccurs rest

/-- `\btok\b` occurs (case-insensitive), tracking the previous character
for the leading boundary and inspecting the following character for the
trailing one. -/
def wordBoundedOccursAux (tok : List Char) : Option Char → List Char → Bool
  | _, [] => false
  | prev, c :: rest =>
      (!(isWordOpt prev) &&
        (match ciLead tok (c :: rest) with
         | some r => !(isWordOpt r.head?)
         | none => false)) ||
      wordBoundedOccursAux tok (some c) rest

def wordBoundedOccurs (tok : String) (code : String) : Bool :=
  wordBoundedOccursAux tok.data none code.data

/-- Disjunction of the eleven `SERVER_PATTERNS` searches performed at the
end of `detect_ajax_patterns` (lines 390-394). -/
def hasServerDepsCheck (code : String) : Bool :=
  ciOccurs "@model." code || ciOccurs "@viewbag." code || ciOccurs "@viewdata." code ||
  ciOccurs "@url.action" code || ciOccurs "@url.content" code ||
  ciOccurs "<%=" code || ciOccurs "<%:" code || aspOpenWsOccurs code.data ||
  templateBracesOccurs code.data ||
  wordBoundedOccurs "response.write" (lowerStr code) ||
  wordBoundedOccurs "request.form" (lowerStr code)

/-! ## Inline/external decision (`is_inline_ajax`, lines 443-459) -/

def INLINE_EXTENSIONS : List String :=
  [".cshtml", ".aspx", ".ascx", ".master", ".html", ".htm", ".php", ".jsp"]

/-- `os.path.splitext(path)[1]`: the last-dot suffix of the basename,
empty when the basename has no dot or only leading dots. -/
def splitextExt (path : String) : String :=
  let base := (path.data.reverse.takeWhile (fun c => !(c == '/'))).reverse
  let (revAfter, revRest) := base.reverse.span (fun c => !(c == '.'))
  match revRest with
  | [] => ""
  | _ :: revBefore =>
      if revBefore.any (fun c => !(c == '.')) then
        String.mk ('.' :: revAfter.reverse)
      else ""

/-- `ajax_detector.is_inline_ajax`. -/
def is_inline_ajax (file_path : String) : Bool :=
  let extLower := lowerStr (splitextExt file_path)
  if extLower == ".js" then false
  else if INLINE_EXTENSIONS.contains extLower then true
  else true

/-! ## Per-match detail emission and the detection entry point -/

/-- One entry of `snippet.ajax_details` (lines 365-373). -/
structure Detail where
  Line : Nat
  Code_Snippet : String
  Category : String
  Capability : String
  Difficulty : String
  Is_Counted : String
  Endpoint : String
deriving DecidableEq, Repr

/-- The detail dict built for one regex match `(offset, text)` of a region
whose text is `code` and whose start line is `startLine`.  Note the line
computation embeds the source literally: `code[:match.start()].count('\\n')`
counts occurrences of the two-character sequence backslash-`n`, not
newline characters (line 362). -/
def mkDetail (code : String) (startLine : Nat) (m : Nat × String) : Detail :=
  let matchStr := m.2
  let lowerMatch := lowerStr matchStr
  let o := classifyMatch lowerMatch
  let relOffset := countSub ['\\', 'n'] (code.data.take m.1)
  { Line := startLine + relOffset
    Code_Snippet := String.mk (matchStr.data.take 100)
    Category := o.category
    Capability := o.capability
    Difficulty := o.difficulty
    Is_Counted := if o.countsAsRequest then "Yes" else "No"
    Endpoint := extract_endpoint_url code lowerMatch }

/-- The `for match in matches` loop (lines 168-377): appends one detail per
match and increments the count exactly when the match classifies as a
logical request. -/
def detectLoop (code : String) (startLine : Nat) :
    List (Nat × String) → List Detail × Nat
  | [] => ([], 0)
  | m :: rest =>
      let d := mkDetail code startLine m
      let (ds, c) := detectLoop code startLine rest
      (d :: ds, (if d.Is_Counted == "Yes" then 1 else 0) + c)

/-- The fields of `parser.CodeSnippet` that `detect_ajax_patterns` reads or
writes, with the initial values of `CodeSnippet.__init__`. -/
structure CodeSnippet where
  file_path : String
  start_line : Nat
  end_line : Nat
  category : String
  snippet : String
  code_type : String
  full_code : String
  ajax_detected : Bool := false
  ajax_count : Nat := 0
  source_type : String := "INLINE"
  ajax_pattern : String := ""
  endpoint_url : String := ""
  has_server_deps : Bool := false
  is_inline_ajax : Bool := false
  capability : String := "Unknown"
  difficulty : String := "Unknown"
  ajax_details : List Detail := []
deriving DecidableEq, Repr

/-- `ajax_detector.detect_ajax_patterns` (lines 139-396): returns the
enriched snippet (mutation modelled functionally) and the boolean result. -/
def detect_ajax_patterns (snippet : CodeSnippet) : CodeSnippet × Bool :=
  if snippet.category != "JS" then (snippet, false)
  else
    let code := snippet.full_code
    let ms := ajaxCallMatches code
    match ms with
    | [] => (snippet, false)
    | first :: _ =>
        let (details, count) := detectLoop code snippet.start_line ms
        let firstDetail := mkDetail code snippet.start_line first
        ({ snippet with
            ajax_detected := true
            ajax_count := count
            ajax_details := details
            ajax_pattern := firstDetail.Category ++ " (" ++ firstDetail.Capability ++ ")"
            capability := firstDetail.Capability
            difficulty := firstDetail.Difficulty
            endpoint_url := firstDetail.Endpoint
            is_inline_ajax := is_inline_ajax snippet.file_path
            has_server_deps := hasServerDepsCheck code }, true)

/-! ## Deduplication (`parser.Parser.parse`, lines 99-111)

The parse loop collapses findings by the signature
`(start_line, code_type, full_code.strip())`, keeping the first finding
seen for each signature. -/

def dedupKey (f : CodeSnippet) : Nat × String × String :=
  (f.start_line, f.code_type, f.full_code.trim)

def dedupAux : List CodeSnippet → List (Nat × String × String) → List CodeSnippet
  | [], _ => []
  | f :: rest, seen =>
      if dedupKey f ∈ seen then dedupAux rest seen
      else f :: dedupAux rest (dedupKey f :: seen)

/-- The `seen`-set accumulation of the same loop. -/
def seenAfter : List CodeSnippet → List (Nat × String × String) → List (Nat × String × String)
  | [], seen => seen
  | f :: rest, seen =>
      if dedupKey f ∈ seen then seenAfter rest seen
      else seenAfter rest (dedupKey f :: seen)

/-- Step 3 of `Parser.parse`: `unique_findings` from `all_findings`. -/
def dedup (findings : List CodeSnippet) : List CodeSnippet :=
  dedupAux findings []

/-! ## Correlation (`crawler/comparer.py`)

The static report is loaded into a dict keyed by whitespace-normalized
snippet text; the dict's values (file/row locations) never influence the
partitioning, so the static side is modelled by its list of keys. -/

/-- `re.sub(r'\s+', ' ', code)`: collapse every whitespace run to one
space.  The flag records whether the previous character was part of a
whitespace run already replaced. -/
def collapseWsAux : Bool → List Char → List Char
  | _, [] => []
  | prevSp, c :: rest =>
      if isSpaceChar c then
        if prevSp then collapseWsAux true rest
        else ' ' :: collapseWsAux true rest
      else c :: collapseWsAux false rest

/-- `comparer.normalize_snippet` (lines 7-9):
`re.sub(r'\s+', ' ', code).strip()`. -/
def normalize_snippet (code : String) : String :=
  (String.mk (collapseWsAux false code.data)).trim

/-- A dynamically-crawled finding as `Comparer.correlate` consumes it. -/
structure DynFinding where
  file_path : String
  snippet : String
  ajax_pattern : String
  endpoint_url : String
deriving DecidableEq, Repr

/-- A correlation record as `Comparer.correlate` emits it (the
`static_locations` payload of VERIFIED records is omitted: it is copied
from the static dict's values and does not carry identity). -/
structure CorrRecord where
  status : String
  dynamic_url : String
  snippet : String
  ajax_type : String
  endpoint_url : String
deriving DecidableEq, Repr

def mkVerifiedRecord (d : DynFinding) : CorrRecord :=
  ⟨"VERIFIED", d.file_path, d.snippet, d.ajax_pattern, d.endpoint_url⟩

def mkNewRecord (d : DynFinding) : CorrRecord :=
  ⟨"NEW_WEB_ONLY", d.file_path, d.snippet, d.ajax_pattern, d.endpoint_url⟩

/-- The `for finding in dynamic_findings` loop of `Comparer.correlate`
(lines 65-90): route each dynamic finding to VERIFIED or NEW_WEB_ONLY and
accumulate the matched static keys. -/
def correlateLoop (staticKeys : List String) :
    List DynFinding → List CorrRecord × List CorrRecord × List String
  | [] => ([], [], [])
  | d :: rest =>
      let norm := normalize_snippet d.snippet
      let (ms, ns, ks) := correlateLoop staticKeys rest
      if staticKeys.contains norm then (mkVerifiedRecord d :: ms, ns, norm :: ks)
      else (ms, mkNewRecord d :: ns, ks)

/-- `Comparer.correlate` (lines 56-102): the third component is the set of
static keys never matched (the identity content of the MISSING_IN_CRAWL
records, which the source renders with a truncated snippet for display). -/
def correlate (staticKeys : List String) (dyn : List DynFinding) :
    List CorrRecord × List CorrRecord × List String :=
  let (ms, ns, ks) := correlateLoop staticKeys dyn
  (ms, ns, staticKeys.filter (fun k => !(ks.contains k)))

/-- Identity key of a VERIFIED/NEW record: the normalization of the
dynamic snippet it was built from. -/
def recordKey (r : CorrRecord) : String :=
  normalize_snippet r.snippet

def verifiedKeys (staticKeys : List String) (dyn : List DynFinding) : List String :=
  (correlate staticKeys dyn).1.map recordKey

def newKeys (staticKeys : List String) (dyn : List DynFinding) : List String :=
  (correlate staticKeys dyn).2.1.map recordKey

def missingKeys (staticKeys : List String) (dyn : List DynFinding) : List String :=
  (correlate staticKeys dyn).2.2

/-! ## CSP allowlist derivation (`crawler/tracker.py`) -/

/-- `urllib.parse.urlparse(url).netloc`: strip a syntactically valid
scheme, then a netloc exists exactly when the remainder begins with `//`,
extending to the next `/`, `?` or `#`. -/
def validScheme (l : List Char) : Bool :=
  match l with
  | [] => false
  | c :: cs => c.isAlpha && cs.all (fun x => x.isAlphanum || x == '+' || x == '-' || x == '.')

def dropScheme (l : List Char) : List Char :=
  let before := l.takeWhile (fun c => !(c == ':'))
  let after := l.dropWhile (fun c => !(c == ':'))
  match after with
  | ':' :: rest => if validScheme before then rest else l
  | _ => l

def urlparseNetloc (url : String) : String :=
  match dropScheme url.data with
  | '/' :: '/' :: r =>
      String.mk (r.takeWhile (fun c => !(c == '/' || c == '?' || c == '#')))
  | _ => ""

/-- `CorrelationTracker._get_csp_domain` (lines 25-43). -/
def get_csp_domain (endpoint : String) : String :=
  if endpoint == "" || endpoint == "Dynamic/Variable" || endpoint == "Server-Generated" ||
     endpoint == "Unknown/Dynamic" then "Manual Review Required"
  -- endpoint.startswith('/')
  else if leadsList "/".data endpoint.data then "Self"
  else
    let netloc := urlparseNetloc endpoint
    if netloc != "" then netloc
    else if containsSub "." endpoint && containsSub "/" endpoint then
      -- endpoint.split('/')[0]
      String.mk (endpoint.data.takeWhile (fun c => !(c == '/')))
    else "Self (Assumed)"

/-- An item of `matches + new_findings` as `_create_csp_allowlist` reads
it (only `endpoint_url` and `status` are consulted). -/
structure CorrItem where
  status : String
  endpoint_url : String
deriving DecidableEq, Repr

/-- `domains[domain]['count'] += 1` over an association list. -/
def bumpDomain : List (String × Nat) → String → List (String × Nat)
  | [], d => [(d, 1)]
  | (k, n) :: rest, d =>
      if k == d then (k, n + 1) :: rest else (k, n) :: bumpDomain rest d

/-- One iteration of the `for item in all_items` loop of
`_create_csp_allowlist`: bucket the item's CSP domain unless it is one of
the three non-origin values. -/
def cspStep (acc : List (String × Nat)) (it : CorrItem) : List (String × Nat) :=
  let domain := get_csp_domain it.endpoint_url
  if domain == "Manual Review Required" || domain == "Self" ||
     domain == "Self (Assumed)" then acc
  else bumpDomain acc domain

/-- `CorrelationTracker._create_csp_allowlist` (lines 45-66): bucket the
CSP domain of every item, skipping the three non-origin buckets.  (The
per-domain status set is display metadata and is omitted.) -/
def create_csp_allowlist (items : List CorrItem) : List (String × Nat) :=
  items.foldl cspStep []

/-! ## Derived views used by the theorems below -/

/-- The three endpoint sentinels of the spec and of
`extract_endpoint_url`. -/
def endpointSentinels : List String :=
  ["Dynamic/Variable", "Server-Generated", "Unknown/Dynamic"]

/-- Every string an `URL_PATTERNS` search over `code` can extract (the
pool `extract_endpoint_url` draws non-sentinel answers from). -/
def extractionCandidates (code : String) : List String :=
  let sc := code.data.take 1000
  [searchAt fetchTemplateAt sc, searchAt fetchLiteralAt sc,
   searchAt jqueryLiteralAt sc, searchAt axiosLiteralAt sc,
   searchAt urlTemplateAt sc, searchAt urlPropertyAt sc,
   searchAt urlConcatAt sc].filterMap id

/-- A JS script-block region whose text is exactly `fetch('/api/users')`. -/
def fetchUsersSnippet : CodeSnippet :=
  { file_path := "index.html", start_line := 1, end_line := 1, category := "JS",
    snippet := "fetch('/api/users')", code_type := "scriptblock",
    full_code := "fetch('/api/users')" }

/-- A CSS region (non-JS category), used to exercise the frame property. -/
def cssSnippet : CodeSnippet :=
  { file_path := "style.html", start_line := 3, end_line := 3, category := "CSS",
    snippet := "body \x7b color: red \x7d", code_type := "styleblock",
    full_code := "body \x7b color: red \x7d" }

/-- A JS region that uses jQuery with several calls, for witnesses. -/
def jqueryUsersSnippet : CodeSnippet :=
  { file_path := "app.cshtml", start_line := 10, end_line := 12, category := "JS",
    snippet := "$.ajaxSetup();", code_type := "scriptblock",
    full_code := "$.ajaxSetup(); $.getJSON('/api/list');" }

theorem applyRules_eq_of_first_match (rs : List ClassRule) (lm : String) :
    ∀ (i : Nat) (h : i < rs.length),
      (rs.get ⟨i, h⟩).pred lm = true →
      (∀ (k : Nat) (hk : k < rs.length), k < i → (rs.get ⟨k, hk⟩).pred lm = false) →
      applyRules rs lm = (rs.get ⟨i, h⟩).outcome := by
  induction rs with
  | nil => intro i h; exact absurd h (Nat.not_lt_zero i)
  | cons r rest ih =>
    intro i h hpred hmin
    cases i with
    | zero => simp [applyRules, List.get] at hpred ⊢; simp [hpred]
    | succ n =>
      have hr : r.pred lm = false := by
        have := hmin 0 (Nat.succ_pos _) (Nat.succ_pos n)
        simpa [List.get] using this
      have hn : n < rest.length := Nat.lt_of_succ_lt_succ h
      simp only [applyRules, hr, Bool.false_eq_true, if_false]
      have := ih n hn (by simpa [List.get] using hpred)
        (fun k hk hki => by
          have := hmin (k + 1) (Nat.succ_lt_succ hk) (Nat.succ_lt_succ hki)
          simpa [List.get] using this)
      simpa [List.get] using this

set_option maxRecDepth 40000

/-- Claim C1 (counterexample): the claim states that whenever the lower-cased
matched text satisfies the predicates of two rules A ordered before B, the
emitted classification is A's outcome.  The text
`<iframe style=".js.css display: none` — a genuine match of the primary
pattern — satisfies rule 2 (`.css`) and rule 35 (`iframe`), yet the chain
emits rule 1's outcome (`.js`), not rule 2's. -/
theorem classifier_pair_order_counterexample :
    ajaxCallMatches "<iframe style=\".js.css display: none" =
      [(0, "<iframe style=\".js.css display: none")] ∧
    (classifierRules.get ⟨2, by decide⟩).pred "<iframe style=\".js.css display: none" = true ∧
    (classifierRules.get ⟨35, by decide⟩).pred "<iframe style=\".js.css display: none" = true ∧
    classifyMatch "<iframe style=\".js.css display: none" ≠
      (classifierRules.get ⟨2, by decide⟩).outcome ∧
    classifyMatch "<iframe style=\".js.css display: none" =
      ⟨"Request", "Script Loading (Dynamic)", "Hard", true⟩ := by
  exact ⟨by decide, by decide, by decide, by decide, by decide⟩

/-- Claim C1 (amended): the classifier chain is first-match-wins — the emitted
`(category, capability, difficulty, counts_as_request)` is the outcome of
the earliest rule in catalogue order whose predicate the lower-cased
matched text satisfies; in particular, when A is that earliest satisfied
rule and B any later satisfied rule, the result is A's outcome, not B's. -/
theorem classifier_earliest_rule_wins (lm : String) (i : Nat)
    (h : i < classifierRules.length)
    (hpred : (classifierRules.get ⟨i, h⟩).pred lm = true)
    (hmin : ∀ (k : Nat) (hk : k < classifierRules.length), k < i →
      (classifierRules.get ⟨k, hk⟩).pred lm = false) :
    classifyMatch lm = (classifierRules.get ⟨i, h⟩).outcome :=
  applyRules_eq_of_first_match classifierRules lm i h hpred hmin

/-- Witness for `classifier_earliest_rule_wins` at rule 0 and the text
`sendbeacon`. -/
theorem classifier_earliest_rule_wins_witness :
    classifyMatch "navigator.sendbeacon(" = ⟨"Request", "Telemetry", "Easy", true⟩ :=
  (classifier_earliest_rule_wins "navigator.sendbeacon(" 0 (by decide) (by decide)
    (fun k _ hk => absurd hk (Nat.not_lt_zero k))).trans (by decide)

/-- Claim C2: the emitted `(category, capability, difficulty, counts_as_request)`
tuple of a finding is a function of the matched text alone — region
content, region start line and match offset never influence it. -/
theorem classification_deterministic (code₁ : String) (sl₁ : Nat) (m₁ : Nat × String)
    (code₂ : String) (sl₂ : Nat) (m₂ : Nat × String) (h : m₁.2 = m₂.2) :
    ((mkDetail code₁ sl₁ m₁).Category, (mkDetail code₁ sl₁ m₁).Capability,
     (mkDetail code₁ sl₁ m₁).Difficulty, (mkDetail code₁ sl₁ m₁).Is_Counted) =
    ((mkDetail code₂ sl₂ m₂).Category, (mkDetail code₂ sl₂ m₂).Capability,
     (mkDetail code₂ sl₂ m₂).Difficulty, (mkDetail code₂ sl₂ m₂).Is_Counted) := by
  simp only [mkDetail, h]

/-- Witness for `classification_deterministic`: the same matched text in
two different regions, lines and offsets. -/
theorem classification_deterministic_witness :
    ((mkDetail "fetch('/a')" 1 (0, "fetch(")).Category,
     (mkDetail "fetch('/a')" 1 (0, "fetch(")).Capability,
     (mkDetail "fetch('/a')" 1 (0, "fetch(")).Difficulty,
     (mkDetail "fetch('/a')" 1 (0, "fetch(")).Is_Counted) =
    ((mkDetail "var x = 1; fetch('/b')" 7 (11, "fetch(")).Category,
     (mkDetail "var x = 1; fetch('/b')" 7 (11, "fetch(")).Capability,
     (mkDetail "var x = 1; fetch('/b')" 7 (11, "fetch(")).Difficulty,
     (mkDetail "var x = 1; fetch('/b')" 7 (11, "fetch(")).Is_Counted) :=
  classification_deterministic "fetch('/a')" 1 (0, "fetch(")
    "var x = 1; fetch('/b')" 7 (11, "fetch(") rfl

/-- The detection loop's running count equals the number of emitted details
flagged `Is_Counted = "Yes"`. -/
theorem detectLoop_count_eq (code : String) (startLine : Nat) :
    ∀ ms : List (Nat × String),
      (detectLoop code startLine ms).2 =
      ((detectLoop code startLine ms).1.filter (fun d => d.Is_Counted == "Yes")).length := by
  intro ms
  induction ms with
  | nil => simp [detectLoop]
  | cons m rest ih =>
    simp only [detectLoop, List.filter]
    cases hc : (mkDetail code startLine m).Is_Counted == "Yes" with
    | false => simpa [hc] using ih
    | true => simp [hc, ih, Nat.add_comm]

/-- Claim C3 (counterexample): in the App_Delivery_Package scanner the per-file
`ajax_calls` count is the raw number of primary-pattern matches; for the
content `onreadystatechange=` it reports 1 although the single finding
classifies as `counts_as_request = false`, so a non-counting finding does
contribute to that variant's tally. -/
theorem app_scanner_count_counterexample :
    appAjaxCallsCount "onreadystatechange=" = 1 ∧
    (((reFinditer appAjaxCallAlternation "onreadystatechange=").map
        (fun m => classifyMatch (lowerStr m.2))).filter
      (fun o => o.countsAsRequest)).length = 0 := by
  exact ⟨by decide, by decide⟩

/-- Claim C3 (amended): in `detect_ajax_patterns` (and the repo_depth_analyser
scanner, whose loop `detectLoop` embeds identically), the aggregate AJAX
count equals the number of findings flagged as counting
(`counts_as_request = true`); findings flagged `"No"` never contribute.
The App_Delivery_Package variant instead counts every primary-pattern
match (see the counterexample). -/
theorem ajax_count_eq_counted_findings (snippet : CodeSnippet)
    (h0 : snippet.ajax_count = 0) (h1 : snippet.ajax_details = []) :
    ((detect_ajax_patterns snippet).1).ajax_count =
    (((detect_ajax_patterns snippet).1).ajax_details.filter
      (fun d => d.Is_Counted == "Yes")).length := by
  unfold detect_ajax_patterns
  by_cases hc : snippet.category != "JS"
  · simp [hc, h0, h1]
  · cases hms : ajaxCallMatches snippet.full_code with
    | nil => simp [hc, hms, h0, h1]
    | cons first rest =>
      simp only [hc, hms, Bool.false_eq_true, if_false]
      simpa using detectLoop_count_eq snippet.full_code snippet.start_line (first :: rest)

/-- Witness for `ajax_count_eq_counted_findings` on a jQuery region with a
non-counting and a counting finding. -/
theorem ajax_count_eq_counted_findings_witness :
    ((detect_ajax_patterns jqueryUsersSnippet).1).ajax_count =
    (((detect_ajax_patterns jqueryUsersSnippet).1).ajax_details.filter
      (fun d => d.Is_Counted == "Yes")).length :=
  ajax_count_eq_counted_findings jqueryUsersSnippet rfl rfl

/-- Claim C10: on a non-JS region, or a JS region with no primary-pattern match,
`detect_ajax_patterns` returns `False` and the snippet unchanged (every
field keeps its value). -/
theorem detect_frame_on_non_js_or_no_match (snippet : CodeSnippet)
    (h : snippet.category ≠ "JS" ∨ ajaxCallMatches snippet.full_code = []) :
    detect_ajax_patterns snippet = (snippet, false) := by
  unfold detect_ajax_patterns
  rcases h with h | h
  · simp [h]
  · by_cases hc : snippet.category != "JS"
    · simp [hc]
    · simp [hc, h]

/-- Witness for `detect_frame_on_non_js_or_no_match` on a CSS region. -/
theorem detect_frame_witness :
    detect_ajax_patterns cssSnippet = (cssSnippet, false) :=
  detect_frame_on_non_js_or_no_match cssSnippet (Or.inl (by decide))

theorem seenAfter_mem (l : List CodeSnippet) :
    ∀ (seen : List (Nat × String × String)) (k : Nat × String × String),
      k ∈ seen → k ∈ seenAfter l seen := by
  induction l with
  | nil => intro seen k hk; simpa [seenAfter] using hk
  | cons f rest ih =>
    intro seen k hk
    simp only [seenAfter]
    split
    · exact ih seen k hk
    · exact ih (dedupKey f :: seen) k (List.mem_cons_of_mem _ hk)

theorem seenAfter_covers (l : List CodeSnippet) :
    ∀ (seen : List (Nat × String × String)) (f : CodeSnippet),
      f ∈ l → dedupKey f ∈ seenAfter l seen := by
  induction l with
  | nil => intro seen f hf; exact absurd hf (List.not_mem_nil f)
  | cons g rest ih =>
    intro seen f hf
    simp only [seenAfter]
    rcases List.mem_cons.mp hf with hf | hf
    · subst hf
      split
      · exact seenAfter_mem rest seen _ (by assumption)
      · exact seenAfter_mem rest _ _ (List.mem_cons_self _ _)
    · split
      · exact ih seen f hf
      · exact ih _ f hf

theorem dedupAux_append (a : List CodeSnippet) :
    ∀ (b : List CodeSnippet) (seen : List (Nat × String × String)),
      dedupAux (a ++ b) seen = dedupAux a seen ++ dedupAux b (seenAfter a seen) := by
  induction a with
  | nil => intro b seen; simp [dedupAux, seenAfter]
  | cons f rest ih =>
    intro b seen
    simp only [List.cons_append, dedupAux, seenAfter]
    split
    · exact ih b seen
    · simp [ih b (dedupKey f :: seen)]

theorem dedupAux_eq_nil_of_seen (l : List CodeSnippet) :
    ∀ seen : List (Nat × String × String),
      (∀ f ∈ l, dedupKey f ∈ seen) → dedupAux l seen = [] := by
  induction l with
  | nil => intro seen _; rfl
  | cons f rest ih =>
    intro seen h
    have hf : dedupKey f ∈ seen := h f (List.mem_cons_self _ _)
    simp only [dedupAux, if_pos hf]
    exact ih seen (fun g hg => h g (List.mem_cons_of_mem _ hg))

/-- Claim C4: deduplication is idempotent over extraction — deduplicating the
concatenation of two identical extraction runs (the extractor is a
deterministic function of its `(file path, content)` input, so the two
runs produce the same region list `l`) yields the same region set as
deduplicating a single run. -/
theorem dedup_doubled_run (l : List CodeSnippet) : dedup (l ++ l) = dedup l := by
  unfold dedup
  rw [dedupAux_append l l []]
  rw [dedupAux_eq_nil_of_seen l (seenAfter l []) (fun f hf => seenAfter_covers l [] f hf)]
  simp

theorem correlateLoop_verified_eq (sk : List String) :
    ∀ dyn : List DynFinding,
      (correlateLoop sk dyn).1 =
      (dyn.filter (fun d => sk.contains (normalize_snippet d.snippet))).map
        mkVerifiedRecord := by
  intro dyn
  induction dyn with
  | nil => simp [correlateLoop]
  | cons d rest ih =>
    simp only [correlateLoop, List.filter]
    cases hc : sk.contains (normalize_snippet d.snippet) with
    | true => simp [hc, ih]
    | false => simp [hc, ih]

theorem correlateLoop_new_eq (sk : List String) :
    ∀ dyn : List DynFinding,
      (correlateLoop sk dyn).2.1 =
      (dyn.filter (fun d => !(sk.contains (normalize_snippet d.snippet)))).map
        mkNewRecord := by
  intro dyn
  induction dyn with
  | nil => simp [correlateLoop]
  | cons d rest ih =>
    simp only [correlateLoop, List.filter]
    cases hc : sk.contains (normalize_snippet d.snippet) with
    | true => simp [hc, ih]
    | false => simp [hc, ih]

theorem correlateLoop_keys_eq (sk : List String) :
    ∀ dyn : List DynFinding,
      (correlateLoop sk dyn).2.2 =
      (dyn.filter (fun d => sk.contains (normalize_snippet d.snippet))).map
        (fun d => normalize_snippet d.snippet) := by
  intro dyn
  induction dyn with
  | nil => simp [correlateLoop]
  | cons d rest ih =>
    simp only [correlateLoop, List.filter]
    cases hc : sk.contains (normalize_snippet d.snippet) with
    | true => simp [hc, ih]
    | false => simp [hc, ih]

theorem correlate_fst (sk : List String) (dyn : List DynFinding) :
    (correlate sk dyn).1 = (correlateLoop sk dyn).1 := by
  unfold correlate
  rcases correlateLoop sk dyn with ⟨ms, ns, ks⟩
  rfl

theorem correlate_snd_fst (sk : List String) (dyn : List DynFinding) :
    (correlate sk dyn).2.1 = (correlateLoop sk dyn).2.1 := by
  unfold correlate
  rcases correlateLoop sk dyn with ⟨ms, ns, ks⟩
  rfl

theorem correlate_snd_snd (sk : List String) (dyn : List DynFinding) :
    (correlate sk dyn).2.2 =
    sk.filter (fun k => !((correlateLoop sk dyn).2.2.contains k)) := by
  unfold correlate
  rcases correlateLoop sk dyn with ⟨ms, ns, ks⟩
  rfl

theorem verifiedKeys_eq (sk : List String) (dyn : List DynFinding) :
    verifiedKeys sk dyn =
    (dyn.filter (fun d => sk.contains (normalize_snippet d.snippet))).map
      (fun d => normalize_snippet d.snippet) := by
  unfold verifiedKeys
  rw [correlate_fst, correlateLoop_verified_eq, List.map_map]
  rfl

theorem newKeys_eq (sk : List String) (dyn : List DynFinding) :
    newKeys sk dyn =
    (dyn.filter (fun d => !(sk.contains (normalize_snippet d.snippet)))).map
      (fun d => normalize_snippet d.snippet) := by
  unfold newKeys
  rw [correlate_snd_fst, correlateLoop_new_eq, List.map_map]
  rfl

theorem missingKeys_eq (sk : List String) (dyn : List DynFinding) :
    missingKeys sk dyn =
    sk.filter (fun k =>
      !(((dyn.filter (fun d => sk.contains (normalize_snippet d.snippet))).map
          (fun d => normalize_snippet d.snippet)).contains k)) := by
  unfold missingKeys
  rw [correlate_snd_snd, correlateLoop_keys_eq]

theorem verifiedKeys_mem_iff (sk : List String) (dyn : List DynFinding) (k : String) :
    k ∈ verifiedKeys sk dyn ↔
    ∃ d, d ∈ dyn ∧ normalize_snippet d.snippet = k ∧ sk.contains k = true := by
  rw [verifiedKeys_eq]
  simp only [List.mem_map, List.mem_filter]
  constructor
  · rintro ⟨d, ⟨hd, hp⟩, hk⟩
    exact ⟨d, hd, hk, by rw [← hk]; exact hp⟩
  · rintro ⟨d, hd, hk, hc⟩
    exact ⟨d, ⟨hd, by rw [hk]; exact hc⟩, hk⟩

theorem newKeys_mem_iff (sk : List String) (dyn : List DynFinding) (k : String) :
    k ∈ newKeys sk dyn ↔
    ∃ d, d ∈ dyn ∧ normalize_snippet d.snippet = k ∧ sk.contains k = false := by
  rw [newKeys_eq]
  simp only [List.mem_map, List.mem_filter, Bool.not_eq_true']
  constructor
  · rintro ⟨d, ⟨hd, hp⟩, hk⟩
    exact ⟨d, hd, hk, by rw [← hk]; exact hp⟩
  · rintro ⟨d, hd, hk, hc⟩
    exact ⟨d, ⟨hd, by rw [hk]; exact hc⟩, hk⟩

theorem missingKeys_mem_iff (sk : List String) (dyn : List DynFinding) (k : String) :
    k ∈ missingKeys sk dyn ↔ k ∈ sk ∧ k ∉ verifiedKeys sk dyn := by
  rw [missingKeys_eq, ← verifiedKeys_eq]
  simp only [List.mem_filter, Bool.not_eq_true']
  constructor
  · rintro ⟨hsk, hc⟩
    refine ⟨hsk, fun hmem => ?_⟩
    have h2 : (verifiedKeys sk dyn).contains k = true := List.elem_iff.mpr hmem
    rw [h2] at hc
    exact Bool.noConfusion hc
  · rintro ⟨hsk, hno⟩
    refine ⟨hsk, ?_⟩
    cases hc : (verifiedKeys sk dyn).contains k with
    | false => rfl
    | true => exact absurd (List.elem_iff.mp hc) hno

/-- Claim C5: correlation is a complete, disjoint partition.  By
whitespace-normalized identity key: VERIFIED and MISSING_IN_CRAWL together
cover exactly the static keys, VERIFIED and NEW_WEB_ONLY together cover
exactly the keys of the dynamic findings, and no key lands in two
partitions at once. -/
theorem correlate_partition_complete (sk : List String) (dyn : List DynFinding) :
    (∀ k, k ∈ sk ↔ (k ∈ verifiedKeys sk dyn ∨ k ∈ missingKeys sk dyn)) ∧
    (∀ k, (∃ d, d ∈ dyn ∧ normalize_snippet d.snippet = k) ↔
        (k ∈ verifiedKeys sk dyn ∨ k ∈ newKeys sk dyn)) ∧
    (∀ k, k ∈ verifiedKeys sk dyn → k ∉ missingKeys sk dyn) ∧
    (∀ k, k ∈ verifiedKeys sk dyn → k ∉ newKeys sk dyn) ∧
    (∀ k, k ∈ newKeys sk dyn → k ∉ missingKeys sk dyn) := by
  refine ⟨?_, ?_, ?_, ?_, ?_⟩
  · intro k
    constructor
    · intro hsk
      by_cases hv : k ∈ verifiedKeys sk dyn
      · exact Or.inl hv
      · exact Or.inr ((missingKeys_mem_iff sk dyn k).mpr ⟨hsk, hv⟩)
    · rintro (hv | hm)
      · rcases (verifiedKeys_mem_iff sk dyn k).mp hv with ⟨d, _, _, hc⟩
        exact List.elem_iff.mp hc
      · exact ((missingKeys_mem_iff sk dyn k).mp hm).1
  · intro k
    constructor
    · rintro ⟨d, hd, hk⟩
      cases hc : sk.contains k with
      | true => exact Or.inl ((verifiedKeys_mem_iff sk dyn k).mpr ⟨d, hd, hk, hc⟩)
      | false => exact Or.inr ((newKeys_mem_iff sk dyn k).mpr ⟨d, hd, hk, hc⟩)
    · rintro (hv | hn)
      · rcases (verifiedKeys_mem_iff sk dyn k).mp hv with ⟨d, hd, hk, _⟩
        exact ⟨d, hd, hk⟩
      · rcases (newKeys_mem_iff sk dyn k).mp hn with ⟨d, hd, hk, _⟩
        exact ⟨d, hd, hk⟩
  · intro k hv hm
    exact ((missingKeys_mem_iff sk dyn k).mp hm).2 hv
  · intro k hv hn
    rcases (verifiedKeys_mem_iff sk dyn k).mp hv with ⟨_, _, _, hct⟩
    rcases (newKeys_mem_iff sk dyn k).mp hn with ⟨_, _, _, hcf⟩
    rw [hct] at hcf
    exact Bool.noConfusion hcf
  · intro k hn hm
    rcases (newKeys_mem_iff sk dyn k).mp hn with ⟨_, _, _, hcf⟩
    have hsk : k ∈ sk := ((missingKeys_mem_iff sk dyn k).mp hm).1
    have hct : sk.contains k = true := List.elem_iff.mpr hsk
    rw [hct] at hcf
    exact Bool.noConfusion hcf

theorem takeRun1_nonempty (p : Char → Bool) (l : List Char) (cap rest : List Char)
    (h : takeRun1 p l = some (cap, rest)) : ∃ c cs, cap = c :: cs := by
  cases l with
  | nil => exact Option.noConfusion h
  | cons c cs =>
    simp only [takeRun1] at h
    split at h
    · exact ⟨c, cs.takeWhile p, by injection h with h1; injection h1 with h2 h3; exact h2.symm⟩
    · exact Option.noConfusion h

theorem identLead_nonempty (l : List Char) (cap rest : List Char)
    (h : identLead l = some (cap, rest)) : ∃ c cs, cap = c :: cs := by
  cases l with
  | nil => exact Option.noConfusion h
  | cons c cs =>
    simp only [identLead] at h
    split at h
    · exact ⟨c, cs.takeWhile identTailChar,
        by injection h with h1; injection h1 with h2 h3; exact h2.symm⟩
    · exact Option.noConfusion h

theorem stringMk_cons_ne_empty (c : Char) (cs : List Char) : String.mk (c :: cs) ≠ "" := by
  intro h
  have h2 := congrArg String.data h
  simp at h2

theorem fetchLiteralAt_ne_empty (l : List Char) (s : String)
    (h : fetchLiteralAt l = some s) : s ≠ "" := by
  simp only [fetchLiteralAt, bind, Option.bind_eq_some] at h
  obtain ⟨l1, _, h⟩ := h
  obtain ⟨l2, _, h⟩ := h
  obtain ⟨l3, _, h⟩ := h
  obtain ⟨⟨cap, l4⟩, hcap, h⟩ := h
  obtain ⟨l5, _, h⟩ := h
  obtain ⟨c, cs, hcc⟩ := takeRun1_nonempty _ _ _ _ hcap
  subst hcc
  injection h with h
  rw [← h]
  exact stringMk_cons_ne_empty c cs

theorem fetchTemplateAt_ne_empty (l : List Char) (s : String)
    (h : fetchTemplateAt l = some s) : s ≠ "" := by
  simp only [fetchTemplateAt, bind, Option.bind_eq_some] at h
  obtain ⟨l1, _, h⟩ := h
  obtain ⟨l2, _, h⟩ := h
  obtain ⟨l3, _, h⟩ := h
  obtain ⟨⟨cap, l4⟩, hcap, h⟩ := h
  obtain ⟨l5, _, h⟩ := h
  obtain ⟨c, cs, hcc⟩ := takeRun1_nonempty _ _ _ _ hcap
  subst hcc
  injection h with h
  rw [← h]
  exact stringMk_cons_ne_empty c cs

theorem urlTemplateAt_ne_empty (l : List Char) (s : String)
    (h : urlTemplateAt l = some s) : s ≠ "" := by
  simp only [urlTemplateAt, bind, Option.bind_eq_some] at h
  obtain ⟨l1, _, h⟩ := h
  obtain ⟨l2, _, h⟩ := h
  obtain ⟨l3, _, h⟩ := h
  obtain ⟨⟨cap, l4⟩, hcap, h⟩ := h
  obtain ⟨l5, _, h⟩ := h
  obtain ⟨c, cs, hcc⟩ := takeRun1_nonempty _ _ _ _ hcap
  subst hcc
  injection h with h
  rw [← h]
  exact stringMk_cons_ne_empty c cs

theorem urlPropertyAt_ne_empty (l : List Char) (s : String)
    (h : urlPropertyAt l = some s) : s ≠ "" := by
  simp only [urlPropertyAt, bind, Option.bind_eq_some] at h
  obtain ⟨l1, _, h⟩ := h
  obtain ⟨l2, _, h⟩ := h
  obtain ⟨l3, _, h⟩ := h
  obtain ⟨⟨cap, l4⟩, hcap, h⟩ := h
  obtain ⟨l5, _, h⟩ := h
  obtain ⟨c, cs, hcc⟩ := takeRun1_nonempty _ _ _ _ hcap
  subst hcc
  injection h with h
  rw [← h]
  exact stringMk_cons_ne_empty c cs

theorem urlConcatAt_ne_empty (l : List Char) (s : String)
    (h : urlConcatAt l = some s) : s ≠ "" := by
  simp only [urlConcatAt, bind, Option.bind_eq_some] at h
  obtain ⟨l1, _, h⟩ := h
  obtain ⟨l2, _, h⟩ := h
  obtain ⟨⟨id0, l3⟩, hid, h⟩ := h
  obtain ⟨l4, _, h⟩ := h
  obtain ⟨l5, _, h⟩ := h
  obtain ⟨⟨cap, l6⟩, hcap, h⟩ := h
  obtain ⟨l7, _, h⟩ := h
  obtain ⟨c, cs, hcc⟩ := identLead_nonempty _ _ _ hid
  subst hcc
  split at h
  · injection h with h
    rw [← h]
    exact stringMk_cons_ne_empty _ _
  · exact Option.noConfusion h

theorem jqueryLiteralAt_ne_empty (l : List Char) (s : String)
    (h : jqueryLiteralAt l = some s) : s ≠ "" := by
  simp only [jqueryLiteralAt, bind, Option.bind_eq_some] at h
  obtain ⟨l1, _, h⟩ := h
  obtain ⟨l2, _, h⟩ := h
  obtain ⟨m, _, h⟩ := List.exists_of_findSome?_eq_some h
  simp only [bind, Option.bind_eq_some] at h
  obtain ⟨l3, _, h⟩ := h
  obtain ⟨l4, _, h⟩ := h
  obtain ⟨l5, _, h⟩ := h
  obtain ⟨⟨cap, l6⟩, hcap, h⟩ := h
  obtain ⟨l7, _, h⟩ := h
  obtain ⟨c, cs, hcc⟩ := takeRun1_nonempty _ _ _ _ hcap
  subst hcc
  injection h with h
  rw [← h]
  exact stringMk_cons_ne_empty c cs

theorem axiosLiteralAt_ne_empty (l : List Char) (s : String)
    (h : axiosLiteralAt l = some s) : s ≠ "" := by
  simp only [axiosLiteralAt, bind, Option.bind_eq_some] at h
  obtain ⟨l1, _, h⟩ := h
  obtain ⟨l2, _, h⟩ := h
  obtain ⟨m, _, h⟩ := List.exists_of_findSome?_eq_some h
  simp only [bind, Option.bind_eq_some] at h
  obtain ⟨l3, _, h⟩ := h
  obtain ⟨l4, _, h⟩ := h
  obtain ⟨l5, _, h⟩ := h
  obtain ⟨⟨cap, l6⟩, hcap, h⟩ := h
  obtain ⟨l7, _, h⟩ := h
  obtain ⟨c, cs, hcc⟩ := takeRun1_nonempty _ _ _ _ hcap
  subst hcc
  injection h with h
  rw [← h]
  exact stringMk_cons_ne_empty c cs

theorem searchAt_preserves (f : List Char → Option String)
    (hf : ∀ l s, f l = some s → s ≠ "") :
    ∀ l s, searchAt f l = some s → s ≠ "" := by
  intro l
  induction l with
  | nil => intro s h; exact Option.noConfusion h
  | cons c rest ih =>
    intro s h
    simp only [searchAt] at h
    rcases hf0 : f (c :: rest) with _ | r <;> rw [hf0] at h
    · exact ih s h
    · injection h with h
      rw [← h]
      exact hf (c :: rest) r hf0

theorem extractionCandidates_ne_empty (code : String) :
    ∀ s ∈ extractionCandidates code, s ≠ "" := by
  intro s hs
  unfold extractionCandidates at hs
  rcases List.mem_filterMap.mp hs with ⟨o, ho, hid⟩
  simp only [id] at hid
  subst hid
  simp only [List.mem_cons, List.mem_singleton] at ho
  rcases ho with h | h | h | h | h | h | h | h
  · exact searchAt_preserves _ (fetchTemplateAt_ne_empty) _ s h.symm
  · exact searchAt_preserves _ (fetchLiteralAt_ne_empty) _ s h.symm
  · exact searchAt_preserves _ (jqueryLiteralAt_ne_empty) _ s h.symm
  · exact searchAt_preserves _ (axiosLiteralAt_ne_empty) _ s h.symm
  · exact searchAt_preserves _ (urlTemplateAt_ne_empty) _ s h.symm
  · exact searchAt_preserves _ (urlPropertyAt_ne_empty) _ s h.symm
  · exact searchAt_preserves _ (urlConcatAt_ne_empty) _ s h.symm
  · exact absurd h (List.not_mem_nil _)

theorem cand_of_fetchTemplate (code s : String)
    (h : searchAt fetchTemplateAt (code.data.take 1000) = some s) :
    s ∈ extractionCandidates code :=
  List.mem_filterMap.mpr ⟨searchAt fetchTemplateAt (code.data.take 1000), by simp [extractionCandidates], by simpa using h⟩

theorem cand_of_fetchLiteral (code s : String)
    (h : searchAt fetchLiteralAt (code.data.take 1000) = some s) :
    s ∈ extractionCandidates code :=
  List.mem_filterMap.mpr ⟨searchAt fetchLiteralAt (code.data.take 1000), by simp [extractionCandidates], by simpa using h⟩

theorem cand_of_jqueryLiteral (code s : String)
    (h : searchAt jqueryLiteralAt (code.data.take 1000) = some s) :
    s ∈ extractionCandidates code :=
  List.mem_filterMap.mpr ⟨searchAt jqueryLiteralAt (code.data.take 1000), by simp [extractionCandidates], by simpa using h⟩

theorem cand_of_axiosLiteral (code s : String)
    (h : searchAt axiosLiteralAt (code.data.take 1000) = some s) :
    s ∈ extractionCandidates code :=
  List.mem_filterMap.mpr ⟨searchAt axiosLiteralAt (code.data.take 1000), by simp [extractionCandidates], by simpa using h⟩

theorem cand_of_urlTemplate (code s : String)
    (h : searchAt urlTemplateAt (code.data.take 1000) = some s) :
    s ∈ extractionCandidates code :=
  List.mem_filterMap.mpr ⟨searchAt urlTemplateAt (code.data.take 1000), by simp [extractionCandidates], by simpa using h⟩

theorem cand_of_urlProperty (code s : String)
    (h : searchAt urlPropertyAt (code.data.take 1000) = some s) :
    s ∈ extractionCandidates code :=
  List.mem_filterMap.mpr ⟨searchAt urlPropertyAt (code.data.take 1000), by simp [extractionCandidates], by simpa using h⟩

theorem cand_of_urlConcat (code s : String)
    (h : searchAt urlConcatAt (code.data.take 1000) = some s) :
    s ∈ extractionCandidates code :=
  List.mem_filterMap.mpr ⟨searchAt urlConcatAt (code.data.take 1000), by simp [extractionCandidates], by simpa using h⟩

theorem fallbacks_never_empty (code : String) :
    extract_endpoint_fallbacks (code.data.take 1000) ≠ "" ∧
    (extract_endpoint_fallbacks (code.data.take 1000) ∈ endpointSentinels ∨
     extract_endpoint_fallbacks (code.data.take 1000) ∈ extractionCandidates code) := by
  unfold extract_endpoint_fallbacks
  split
  · rename_i r ht
    exact ⟨searchAt_preserves _ urlTemplateAt_ne_empty _ r ht,
           Or.inr (cand_of_urlTemplate code r ht)⟩
  · rename_i ht
    split
    · rename_i url hp
      by_cases hsg : (containsSub "@" url || containsSub "<%" url) = true
      · rw [if_pos hsg]
        exact ⟨by decide, Or.inl (by decide)⟩
      · rw [if_neg hsg]
        exact ⟨searchAt_preserves _ urlPropertyAt_ne_empty _ url hp,
               Or.inr (cand_of_urlProperty code url hp)⟩
    · rename_i hp
      split
      · rename_i r hc
        exact ⟨searchAt_preserves _ urlConcatAt_ne_empty _ r hc,
               Or.inr (cand_of_urlConcat code r hc)⟩
      · rename_i hc
        split
        · exact ⟨by decide, Or.inl (by decide)⟩
        · exact ⟨by decide, Or.inl (by decide)⟩

/-- Claim C6: `extract_endpoint_url` never returns the empty string — its value
is either one of the three sentinels or a non-empty string extracted by an
`URL_PATTERNS` search over the region text. -/
theorem extract_endpoint_url_never_empty (code patternMatch : String) :
    extract_endpoint_url code patternMatch ≠ "" ∧
    (extract_endpoint_url code patternMatch ∈ endpointSentinels ∨
     extract_endpoint_url code patternMatch ∈ extractionCandidates code) := by
  by_cases hf : containsSub "fetch" patternMatch = true
  · rcases ht : searchAt fetchTemplateAt (code.data.take 1000) with _ | r
    · rcases hl : searchAt fetchLiteralAt (code.data.take 1000) with _ | r
      · have he : extract_endpoint_url code patternMatch =
            extract_endpoint_fallbacks (code.data.take 1000) := by
          simp only [extract_endpoint_url, hf, ht, hl, if_true]
        rw [he]
        exact fallbacks_never_empty code
      · have he : extract_endpoint_url code patternMatch = r := by
          simp only [extract_endpoint_url, hf, ht, hl, if_true]
        rw [he]
        exact ⟨searchAt_preserves _ fetchLiteralAt_ne_empty _ r hl,
               Or.inr (cand_of_fetchLiteral code r hl)⟩
    · have he : extract_endpoint_url code patternMatch = r := by
        simp only [extract_endpoint_url, hf, ht, if_true]
      rw [he]
      exact ⟨searchAt_preserves _ fetchTemplateAt_ne_empty _ r ht,
             Or.inr (cand_of_fetchTemplate code r ht)⟩
  · replace hf : containsSub "fetch" patternMatch = false := by simpa using hf
    by_cases hj : (containsSub "jquery" patternMatch || containsSub "$" patternMatch) = true
    · rcases hq : searchAt jqueryLiteralAt (code.data.take 1000) with _ | r
      · have he : extract_endpoint_url code patternMatch =
            extract_endpoint_fallbacks (code.data.take 1000) := by
          simp only [extract_endpoint_url, hf, hj, hq, Bool.false_eq_true, if_false, if_true]
        rw [he]
        exact fallbacks_never_empty code
      · have he : extract_endpoint_url code patternMatch = r := by
          simp only [extract_endpoint_url, hf, hj, hq, Bool.false_eq_true, if_false, if_true]
        rw [he]
        exact ⟨searchAt_preserves _ jqueryLiteralAt_ne_empty _ r hq,
               Or.inr (cand_of_jqueryLiteral code r hq)⟩
    · replace hj : (containsSub "jquery" patternMatch || containsSub "$" patternMatch) = false := by
        simpa using hj
      by_cases ha : containsSub "axios" patternMatch = true
      · rcases hx : searchAt axiosLiteralAt (code.data.take 1000) with _ | r
        · have he : extract_endpoint_url code patternMatch =
              extract_endpoint_fallbacks (code.data.take 1000) := by
            simp only [extract_endpoint_url, hf, hj, ha, hx, Bool.false_eq_true, if_false, if_true]
          rw [he]
          exact fallbacks_never_empty code
        · have he : extract_endpoint_url code patternMatch = r := by
            simp only [extract_endpoint_url, hf, hj, ha, hx, Bool.false_eq_true, if_false, if_true]
          rw [he]
          exact ⟨searchAt_preserves _ axiosLiteralAt_ne_empty _ r hx,
                 Or.inr (cand_of_axiosLiteral code r hx)⟩
      · replace ha : containsSub "axios" patternMatch = false := by simpa using ha
        have he : extract_endpoint_url code patternMatch =
            extract_endpoint_fallbacks (code.data.take 1000) := by
          simp only [extract_endpoint_url, hf, hj, ha, Bool.false_eq_true, if_false]
        rw [he]
        exact fallbacks_never_empty code

/-- Claim C7 (code bug exhibit): for the region text `x\nfetch('/api/users')`
with start line 5 and the match at offset 2, the reported line is 5 —
`code[:match.start()].count('\\n')` counts the two-character sequence
backslash-`n` (zero occurrences here) — whereas start line plus the number
of newline characters before the offset is 6. -/
theorem detector_line_number_bug_exhibit :
    (mkDetail "x\nfetch('/api/users')" 5 (2, "fetch(")).Line = 5 ∧
    5 + ("x\nfetch('/api/users')".data.take 2).countP (fun c => c == '\n') = 6 := by
  exact ⟨by decide, by decide⟩

/-- Claim C8: a JS region whose text is exactly `fetch('/api/users')` produces
exactly one finding, counted as a request, with category `Request` and
endpoint `/api/users` (also surfaced as the region's `endpoint_url`). -/
theorem fetch_script_block_single_finding :
    ((detect_ajax_patterns fetchUsersSnippet).1).ajax_details =
      [{ Line := 1, Code_Snippet := "fetch(", Category := "Request",
         Capability := "Data Exchange", Difficulty := "Easy",
         Is_Counted := "Yes", Endpoint := "/api/users" }] ∧
    ((detect_ajax_patterns fetchUsersSnippet).1).ajax_count = 1 ∧
    ((detect_ajax_patterns fetchUsersSnippet).1).endpoint_url = "/api/users" ∧
    (detect_ajax_patterns fetchUsersSnippet).2 = true := by
  exact ⟨by decide, by decide, by decide, by decide⟩

theorem bumpDomain_mem (d' d : String) (n : Nat) :
    ∀ acc : List (String × Nat),
      (d, n) ∈ bumpDomain acc d' → d = d' ∨ ∃ m, (d, m) ∈ acc := by
  intro acc
  induction acc with
  | nil =>
    intro h
    simp only [bumpDomain, List.mem_singleton] at h
    exact Or.inl (congrArg Prod.fst h)
  | cons p rest ih =>
    rcases p with ⟨k, m⟩
    intro h
    simp only [bumpDomain] at h
    by_cases hk : (k == d') = true
    · rw [if_pos hk] at h
      rcases List.mem_cons.mp h with h | h
      · left
        have hd : d = k := congrArg Prod.fst h
        exact hd.trans (eq_of_beq hk)
      · exact Or.inr ⟨n, List.mem_cons_of_mem _ h⟩
    · rw [if_neg hk] at h
      rcases List.mem_cons.mp h with h | h
      · exact Or.inr ⟨n, h ▸ List.mem_cons_self _ _⟩
      · rcases ih h with h | ⟨m', hm'⟩
        · exact Or.inl h
        · exact Or.inr ⟨m', List.mem_cons_of_mem _ hm'⟩

theorem cspFold_mem (items : List CorrItem) :
    ∀ (acc : List (String × Nat)) (d : String) (n : Nat),
      (d, n) ∈ items.foldl cspStep acc →
      (∃ m, (d, m) ∈ acc) ∨
      ((d ≠ "Manual Review Required" ∧ d ≠ "Self" ∧ d ≠ "Self (Assumed)") ∧
       ∃ it, it ∈ items ∧ get_csp_domain it.endpoint_url = d) := by
  induction items with
  | nil => intro acc d n h; exact Or.inl ⟨n, h⟩
  | cons it rest ih =>
    intro acc d n h
    simp only [List.foldl_cons] at h
    rcases ih (cspStep acc it) d n h with ⟨m, hm⟩ | ⟨hd, it', hit', hdom⟩
    · unfold cspStep at hm
      by_cases hskip : (get_csp_domain it.endpoint_url == "Manual Review Required" ||
          get_csp_domain it.endpoint_url == "Self" ||
          get_csp_domain it.endpoint_url == "Self (Assumed)") = true
      · rw [if_pos hskip] at hm
        exact Or.inl ⟨m, hm⟩
      · rw [if_neg hskip] at hm
        rcases bumpDomain_mem _ d m acc hm with hd | ⟨m', hm'⟩
        · subst hd
          simp only [Bool.or_eq_true, beq_iff_eq, not_or] at hskip
          exact Or.inr ⟨⟨hskip.1.1, hskip.1.2, hskip.2⟩, it, List.mem_cons_self _ _, rfl⟩
        · exact Or.inl ⟨m', hm'⟩
    · exact Or.inr ⟨hd, it', List.mem_cons_of_mem _ hit', hdom⟩

/-- Claim C9 (counterexample): a relative-path endpoint is excluded from the
allowlist but flagged `Self`, not `Manual Review Required` as the claim
states. -/
theorem csp_relative_path_counterexample :
    get_csp_domain "/api/users" = "Self" ∧
    get_csp_domain "/api/users" ≠ "Manual Review Required" := by
  exact ⟨by decide, by decide⟩

/-- Claim C9 (amended): unresolved-sentinel (or empty) endpoints are flagged
`Manual Review Required`; relative-path endpoints are flagged `Self`; both
flags are excluded from the allowlist, and every bucketed allowlist entry
is the CSP domain derived from some correlated item's endpoint. -/
theorem csp_allowlist_amended :
    (∀ e : String,
        (e = "" ∨ e = "Dynamic/Variable" ∨ e = "Server-Generated" ∨ e = "Unknown/Dynamic") →
        get_csp_domain e = "Manual Review Required") ∧
    (∀ e : String, leadsList "/".data e.data = true → get_csp_domain e = "Self") ∧
    (∀ (items : List CorrItem) (d : String) (n : Nat),
        (d, n) ∈ create_csp_allowlist items →
        (d ≠ "Manual Review Required" ∧ d ≠ "Self" ∧ d ≠ "Self (Assumed)") ∧
        ∃ it, it ∈ items ∧ get_csp_domain it.endpoint_url = d) := by
  refine ⟨?_, ?_, ?_⟩
  · intro e h
    rcases h with h | h | h | h <;> subst h <;> decide
  · intro e h
    have h1 : e ≠ "" := by
      intro hc; rw [hc] at h; exact absurd h (by decide)
    have h2 : e ≠ "Dynamic/Variable" := by
      intro hc; rw [hc] at h; exact absurd h (by decide)
    have h3 : e ≠ "Server-Generated" := by
      intro hc; rw [hc] at h; exact absurd h (by decide)
    have h4 : e ≠ "Unknown/Dynamic" := by
      intro hc; rw [hc] at h; exact absurd h (by decide)
    have h0 : (e == "" || e == "Dynamic/Variable" || e == "Server-Generated" ||
               e == "Unknown/Dynamic") = false := by
      simp only [Bool.or_eq_false_iff, beq_eq_false_iff_ne, ne_eq]
      exact ⟨⟨⟨h1, h2⟩, h3⟩, h4⟩
    simp only [get_csp_domain, h0, Bool.false_eq_true, if_false, h, if_true]
  · intro items d n h
    unfold create_csp_allowlist at h
    rcases cspFold_mem items [] d n h with ⟨m, hm⟩ | h
    · exact absurd hm (List.not_mem_nil _)
    · exact h
